import Mathlib

/-!
Verification of the OWLQN optimizer in `src/mltk/maxent/owlqn.cc`.

Vectors (`DoubleVector`) are embedded as `List ℚ`; IEEE doubles are modelled by
exact rationals.  The smooth loss/gradient evaluator `MaxEnt::FunctionGradient`
is external to this core (spec §1, §6) and is embedded as an abstract `Oracle`.
The line-search do-while loop and the outer driver loop are given explicit fuel;
a run that does not finish within its fuel yields `none`.

The operations of the vector library (`double_vector.h`: elementwise `+`, `-`,
scalar `*`, `DotProduct`, `Project`) and the body of `ApproximateHg` (only
declared in `owlqn.cc`) are not under src/; those definitions are modelled from
the spec, as marked in their doc comments.
-/

namespace Mltk

/-- `Sign` from owlqn.cc: 1 for positive, -1 for negative, 0 for zero. -/
def Sign (x : ℚ) : ℚ := if x > 0 then 1 else if x < 0 then -1 else 0

/-- Modelled from the spec: `DoubleVector::DotProduct` lives in the vector
library, which is not under src/; spec §2 lists "dot product" among the
elementwise vector primitives. -/
def DotProduct (a b : List ℚ) : ℚ := (List.zipWith (fun x y => x * y) a b).sum

/-- Modelled from the spec: `DoubleVector::Project` is not under src/; spec §2
describes it as the operation "that zeroes any coordinate whose sign disagrees
with a reference vector's sign". -/
def Project (v ref : List ℚ) : List ℚ :=
  List.zipWith (fun vi ri => if Sign vi = Sign ri then vi else 0) v ref

/-- Modelled from the spec: elementwise vector addition (vector library not
under src/). -/
def vecAdd (a b : List ℚ) : List ℚ := List.zipWith (fun x y => x + y) a b

/-- Modelled from the spec: elementwise vector subtraction (vector library not
under src/). -/
def vecSub (a b : List ℚ) : List ℚ := List.zipWith (fun x y => x - y) a b

/-- Modelled from the spec: scalar * vector (vector library not under src/). -/
def scale (t : ℚ) (a : List ℚ) : List ℚ := a.map (fun ai => t * ai)

/-- `OWLQN_M` from owlqn.cc: history size. -/
def OWLQN_M : ℕ := 10

/-- `LINE_SEARCH_ALPHA` from owlqn.cc. -/
def LINE_SEARCH_ALPHA : ℚ := 1/10

/-- `LINE_SEARCH_BETA` from owlqn.cc. -/
def LINE_SEARCH_BETA : ℚ := 1/2

/-- `OWLQN_MAX_ITER` from owlqn.cc. -/
def OWLQN_MAX_ITER : ℕ := 300

/-- `MIN_GRAD_NORM` from owlqn.cc. -/
def MIN_GRAD_NORM : ℚ := 1/10000

/-- One coordinate of the pseudo-gradient, following the branch structure of
`PseudoGradient` in owlqn.cc exactly. -/
def pgCoord (C xi gi : ℚ) : ℚ :=
  if xi ≠ 0 then gi + C * Sign xi
  else if gi - C > 0 then gi - C
  else if gi + C < 0 then gi + C
  else 0

/-- `PseudoGradient` from owlqn.cc, coordinatewise over the point and the
smooth gradient. -/
def PseudoGradient (x grad0 : List ℚ) (C : ℚ) : List ℚ :=
  List.zipWith (fun xi gi => pgCoord C xi gi) x grad0

/-- The external smooth objective (`MaxEnt::FunctionGradient`): returns the
smooth loss and writes the smooth gradient (spec §6, out of scope of the core). -/
structure Oracle where
  loss : List ℚ → ℚ
  grad : List ℚ → List ℚ

/-- `fabs` from math.h as used by `RegularizedFuncGrad`. -/
def fabs (x : ℚ) : ℚ := if x < 0 then -x else x

/-- `MaxEnt::RegularizedFuncGrad` from owlqn.cc: evaluates the oracle, then
adds `C * fabs(x_i)` for every coordinate to the returned loss; the written
gradient is exactly the oracle's (smooth) gradient. -/
def RegularizedFuncGrad (O : Oracle) (C : ℚ) (x : List ℚ) : ℚ × List ℚ :=
  let g := O.grad x
  let f := x.foldl (fun acc xi => acc + C * fabs xi) (O.loss x)
  (f, g)

/-- The orthant reference vector built at the top of
`MaxEnt::ConstrainedLineSearch`: equal to `x0` except where `x0ᵢ = 0`, where it
is `-grad0ᵢ`. -/
def lsOrthant (x0 grad0 : List ℚ) : List ℚ :=
  List.zipWith (fun xi gi => if xi = 0 then -gi else xi) x0 grad0

/-- A trial point of the line search: `x0 + t*dx` projected onto the orthant. -/
def lsTrialPoint (x0 dx orthant : List ℚ) (t : ℚ) : List ℚ :=
  Project (vecAdd x0 (scale t dx)) orthant

/-- The do-while loop of `MaxEnt::ConstrainedLineSearch`: halve `t`, evaluate
the projected trial point, stop as soon as
`f ≤ f0 + LINE_SEARCH_ALPHA * (x - x0)·grad0`.  `fuel` bounds the number of
trials; the source loop has no such bound, so exhausting `fuel` (`none`)
means the source loop has not returned within that many shrinks. -/
def lsLoop (O : Oracle) (C : ℚ) (x0 grad0 : List ℚ) (f0 : ℚ) (dx orthant : List ℚ) :
    ℕ → ℚ → Option (ℚ × List ℚ × List ℚ)
  | 0, _ => none
  | fuel + 1, t =>
    let t1 := t * LINE_SEARCH_BETA
    let x := lsTrialPoint x0 dx orthant t1
    let fg := RegularizedFuncGrad O C x
    if fg.1 ≤ f0 + LINE_SEARCH_ALPHA * DotProduct (vecSub x x0) grad0 then
      some (fg.1, x, fg.2)
    else lsLoop O C x0 grad0 f0 dx orthant fuel t1

/-- `MaxEnt::ConstrainedLineSearch` from owlqn.cc: build the orthant, start
from `t = 1/LINE_SEARCH_BETA` (so the first effective trial size is 1), and run
the backtracking loop.  Returns the accepted `(f, x, grad1)`. -/
def ConstrainedLineSearch (O : Oracle) (C : ℚ) (x0 grad0 : List ℚ) (f0 : ℚ)
    (dx : List ℚ) (fuel : ℕ) : Option (ℚ × List ℚ × List ℚ) :=
  lsLoop O C x0 grad0 f0 dx (lsOrthant x0 grad0) fuel (1 / LINE_SEARCH_BETA)

/-- One history triple of the driver: `s = x₁ - x₀`, `y = grad₁ - grad₀`,
`z = 1/(y·s)` (rho), exactly as stored by `MaxEnt::PerformOWLQN`.  Note that in
ℚ the degenerate `1/0` evaluates to `0`, whereas the C++ double division yields
`±inf`; the theorems below expose the degenerate `y·s = 0` itself. -/
structure HistEntry where
  s : List ℚ
  y : List ℚ
  z : ℚ
  deriving DecidableEq

/-- Modelled from the spec: the body of `ApproximateHg` is only declared in
owlqn.cc (its definition is not under src/).  Spec §4.3: the standard
limited-memory two-loop recursion over the stored pairs, newest first.
Backward pass: for each pair, `α = ρ (s·q)`, `q := q - α y`; returns the final
`q` together with each pair's `α`. -/
def twoLoopBackward : List HistEntry → List ℚ → List ℚ × List (HistEntry × ℚ)
  | [], q => (q, [])
  | e :: rest, q =>
    let a := e.z * DotProduct e.s q
    let q1 := vecSub q (scale a e.y)
    let r := twoLoopBackward rest q1
    (r.1, (e, a) :: r.2)

/-- Modelled from the spec (§4.3): forward pass of the two-loop recursion,
oldest pair first: `β = ρ (y·q)`, `q := q + (α - β) s`. -/
def twoLoopForward : List (HistEntry × ℚ) → List ℚ → List ℚ
  | [], q => q
  | ea :: rest, q =>
    let b := ea.1.z * DotProduct ea.1.y q
    twoLoopForward rest (vecAdd q (scale (ea.2 - b) ea.1.s))

/-- Modelled from the spec: `ApproximateHg` (declared but not defined under
src/).  Spec §4.3: identity when there is no history; otherwise the two-loop
recursion over the stored pairs in reverse-then-forward chronological order,
with initial Hessian scaling `(s·y)/(y·y)` taken from the most recent pair.
`hist` is kept in chronological order, most recent last. -/
def ApproximateHg (hist : List HistEntry) (pg : List ℚ) : List ℚ :=
  match hist.reverse with
  | [] => pg
  | recent :: olderRev =>
    let r := twoLoopBackward (recent :: olderRev) pg
    let gamma := DotProduct recent.s recent.y / DotProduct recent.y recent.y
    twoLoopForward r.2.reverse (scale gamma r.1)

/-- The mutable state of one `MaxEnt::PerformOWLQN` invocation at the top of
the outer loop: current point, smooth gradient at it, regularized objective
value, and the history buffer (chronological, most recent last, length ≤
`OWLQN_M`; the source's circular arrays indexed `iter % OWLQN_M` hold exactly
these, since the recursion only reads the most recent `min(iter, M)` pairs). -/
structure OwlqnState where
  x : List ℚ
  grad : List ℚ
  f : ℚ
  hist : List HistEntry
  deriving DecidableEq

/-- Append a new history triple, discarding the oldest beyond `OWLQN_M`
(the source's write to slot `iter % OWLQN_M`). -/
def pushHist (hist : List HistEntry) (e : HistEntry) : List HistEntry :=
  let h := hist ++ [e]
  if OWLQN_M < h.length then h.drop (h.length - OWLQN_M) else h

/-- The search direction of one driver iteration:
`dx = -1 * ApproximateHg(...)`, corrected by `dx.Project(-1 * pg)` when
`DotProduct(dx, pg) >= 0`, as in `MaxEnt::PerformOWLQN`. -/
def owlqnDir (C : ℚ) (st : OwlqnState) : List ℚ :=
  let pg := PseudoGradient st.x st.grad C
  let dx := scale (-1) (ApproximateHg st.hist pg)
  if 0 ≤ DotProduct dx pg then Project dx (scale (-1) pg) else dx

/-- One iteration of the outer loop of `MaxEnt::PerformOWLQN` after the
stopping check: compute the pseudo-gradient and the (corrected) direction, run
the line search, and push `(x1 - x, grad1 - grad, 1/(y·s))` into the history.
`none` when the line search does not return within `lsFuel` shrinks. -/
def owlqnStep (O : Oracle) (C : ℚ) (lsFuel : ℕ) (st : OwlqnState) :
    Option OwlqnState :=
  let pg := PseudoGradient st.x st.grad C
  let dx := owlqnDir C st
  match ConstrainedLineSearch O C st.x pg st.f dx lsFuel with
  | none => none
  | some r =>
    let s := vecSub r.2.1 st.x
    let y := vecSub r.2.2 st.grad
    some { x := r.2.1, grad := r.2.2, f := r.1,
           hist := pushHist st.hist ⟨s, y, 1 / DotProduct y s⟩ }

/-- The outer loop of `MaxEnt::PerformOWLQN`, with `fuel` many iterations still
allowed (the driver starts it at `OWLQN_MAX_ITER`).  The source's `sqrt(pg·pg)
< MIN_GRAD_NORM` stopping check is stated in the equivalent squared form
`pg·pg < MIN_GRAD_NORM²` (both sides nonnegative, so no `sqrt` is needed over
ℚ).  Returns the final state, the number of iterations that ran a line search,
and the list of objective values accepted by those line searches in order. -/
def owlqnLoop (O : Oracle) (C : ℚ) (lsFuel : ℕ) :
    ℕ → OwlqnState → Option (OwlqnState × ℕ × List ℚ)
  | 0, st => some (st, 0, [])
  | fuel + 1, st =>
    let pg := PseudoGradient st.x st.grad C
    if DotProduct pg pg < MIN_GRAD_NORM * MIN_GRAD_NORM then some (st, 0, [])
    else
      match owlqnStep O C lsFuel st with
      | none => none
      | some st1 =>
        match owlqnLoop O C lsFuel fuel st1 with
        | none => none
        | some r => some (r.1, r.2.1 + 1, st1.f :: r.2.2)

/-- `MaxEnt::PerformOWLQN` from owlqn.cc: seed `(x, grad, f)` with
`RegularizedFuncGrad`, run at most `OWLQN_MAX_ITER` iterations, and return the
final point. -/
def PerformOWLQN (O : Oracle) (x0 : List ℚ) (C : ℚ) (lsFuel : ℕ) :
    Option (List ℚ) :=
  let fg := RegularizedFuncGrad O C x0
  match owlqnLoop O C lsFuel OWLQN_MAX_ITER ⟨x0, fg.2, fg.1, []⟩ with
  | none => none
  | some r => some r.1.x

/-- The step size of the k-th line-search trial: the source starts at
`t = 1/LINE_SEARCH_BETA` and multiplies by `LINE_SEARCH_BETA` before every
trial, so trial k is evaluated at `(1/2)^k` (trial 0 exactly at 1). -/
def lsStepSize (k : ℕ) : ℚ := (1/2) ^ k

/-- The k-th trial point of `ConstrainedLineSearch`. -/
def lsCandidate (x0 grad0 dx : List ℚ) (k : ℕ) : List ℚ :=
  lsTrialPoint x0 dx (lsOrthant x0 grad0) (lsStepSize k)

/-- The acceptance (sufficient-decrease) condition of the line search at the
k-th trial point. -/
def lsAccepts (O : Oracle) (C : ℚ) (x0 grad0 : List ℚ) (f0 : ℚ) (dx : List ℚ)
    (k : ℕ) : Prop :=
  (RegularizedFuncGrad O C (lsCandidate x0 grad0 dx k)).1 ≤
    f0 + LINE_SEARCH_ALPHA *
      DotProduct (vecSub (lsCandidate x0 grad0 dx k) x0) grad0

instance (O : Oracle) (C : ℚ) (x0 grad0 : List ℚ) (f0 : ℚ) (dx : List ℚ)
    (k : ℕ) : Decidable (lsAccepts O C x0 grad0 f0 dx k) := by
  unfold lsAccepts; infer_instance

/-- Concrete oracle whose line search accepts its very first trial (used to
instantiate the line-search characterization at a closed input). -/
def O2w : Oracle where
  loss := fun _ => 0
  grad := fun _ => [-1]

/-- Concrete oracle whose gradient vanishes everywhere (used to instantiate
the stopping-criterion theorems at a closed input). -/
def Oz : Oracle where
  loss := fun _ => 0
  grad := fun _ => [0]

/-- Driver state at the all-zero point under `Oz`. -/
def stZ : OwlqnState := ⟨[0], [0], 0, []⟩

/-- Concrete one-dimensional oracle: loss 1 at the point `[1]`, 0 elsewhere;
gradient 1 at `[1]`, 3 at `[0]`.  Starting `PerformOWLQN` at `[1]` with
`C = 0`, iteration 0 steps to `[0]` and stores the pair `s = [-1]`,
`y = [2]`, after which iteration 1's raw direction `-ApproximateHg(pg)`
satisfies `dx·pg ≥ 0` and the orthant correction zeroes it entirely. -/
def O3 : Oracle where
  loss := fun v => if v = [1] then 1 else 0
  grad := fun v => if v = [1] then [1] else if v = [0] then [3] else [0]

/-- The driver state seeded by `PerformOWLQN O3 [1] 0`. -/
def st3zero : OwlqnState := ⟨[1], [1], 1, []⟩

/-- The driver state after iteration 0 of `PerformOWLQN O3 [1] 0`. -/
def st3one : OwlqnState := ⟨[0], [3], 0, [⟨[-1], [2], -(1/2)⟩]⟩

/-- Starting point of the monotone-descent counterexample run. -/
def x5init : List ℚ := [14/3, 25/6]

/-- Point reached after iteration 0 of the monotone-descent counterexample. -/
def x5one : List ℚ := [2/3, 1/6]

/-- Concrete two-dimensional oracle for the monotone-descent counterexample:
with `C = 0`, iteration 0 accepts `x5one` with objective 0, and iteration 1's
first trial is projected to the origin, where `(x - x0)·pg = 2/3 > 0`, so the
Armijo condition accepts an objective of `1/60 > 0`: the regularized objective
increases across two consecutive accepted iterations. -/
def O5 : Oracle where
  loss := fun v => if v = x5init then 32 else if v = [0, 0] then 1/60 else 0
  grad := fun v =>
    if v = x5init then [4, 4] else if v = x5one then [-2, 4] else [0, 0]

/-- The driver state seeded by `PerformOWLQN O5 x5init 0`. -/
def st5init : OwlqnState := ⟨x5init, [4, 4], 32, []⟩

/-- The state after iteration 0 of the counterexample run: at `x5one` with
objective 0 and one stored history pair. -/
def st5mid : OwlqnState := ⟨x5one, [-2, 4], 0, [⟨[-4, -4], [-6, 0], 1/24⟩]⟩

/-- The final state of the counterexample run `PerformOWLQN O5 x5init 0`. -/
def st5final : OwlqnState :=
  ⟨[0, 0], [0, 0], 1/60,
   [⟨[-4, -4], [-6, 0], 1/24⟩, ⟨[-2/3, -1/6], [2, -4], -(3/2)⟩]⟩

/-- Concrete one-dimensional oracle with a constant gradient: after the
accepted step of iteration 0, `y = grad1 - grad0 = [0]`, so the history pair
written by the driver has `y·s = 0` and its rho is the unguarded `1/0`
(`+inf` in the C++ double arithmetic; `0` in ℚ). -/
def O6 : Oracle where
  loss := fun v => if v = [1] then 1 else 0
  grad := fun _ => [1]

/-- The driver state seeded by `PerformOWLQN O6 [1] 0`. -/
def st6zero : OwlqnState := ⟨[1], [1], 1, []⟩

/-- The driver state after iteration 0 of `PerformOWLQN O6 [1] 0`: its single
history entry stores `s = [-1]`, `y = [0]` and rho `= 1/(y·s) = 1/0`. -/
def st6one : OwlqnState := ⟨[0], [1], 0, [⟨[-1], [0], 0⟩]⟩

/-- Concrete oracle with constant loss 1: along direction `[-1]` from `[1]`
with `grad0 = [1]`, every trial point has `(x - x0)·grad0 < 0`, so the
sufficient-decrease condition `1 ≤ 1 + 0.1·(x - x0)·grad0` fails at every
shrink and the line-search loop never returns. -/
def O7 : Oracle where
  loss := fun _ => 1
  grad := fun _ => [1]

/-- The executable `fabs` agrees with the mathematical absolute value. -/
theorem fabs_eq_abs (x : ℚ) : fabs x = |x| := by
  unfold fabs
  rcases lt_or_ge x 0 with h | h
  · rw [if_pos h, abs_of_neg h]
  · rw [if_neg (not_lt.mpr h), abs_of_nonneg h]

/-- Folding the L1 accumulation of `RegularizedFuncGrad` over a list adds
`C` times the sum of absolute values to the initial accumulator. -/
theorem foldl_regularizer (C : ℚ) (l : List ℚ) (a : ℚ) :
    l.foldl (fun acc xi => acc + C * fabs xi) a =
      a + C * (l.map (fun xi => |xi|)).sum := by
  induction l generalizing a with
  | nil => simp
  | cons h t ih =>
    simp only [List.foldl_cons, List.map_cons, List.sum_cons]
    rw [ih, fabs_eq_abs]
    ring

/-- Claim C8: `RegularizedFuncGrad(C, x, grad)` returns
`smooth_loss(x) + C·Σ|xᵢ|` and the gradient it writes is exactly the oracle's
smooth gradient, with the L1 term contributing nothing to it. -/
theorem regularized_func_grad_spec (O : Oracle) (C : ℚ) (x : List ℚ) :
    (RegularizedFuncGrad O C x).1 = O.loss x + C * (x.map (fun xi => |xi|)).sum ∧
    (RegularizedFuncGrad O C x).2 = O.grad x := by
  exact ⟨foldl_regularizer C x (O.loss x), rfl⟩

/-- Claim C10: with `C = 0` the pseudo-gradient degenerates to the smooth
gradient in every coordinate. -/
theorem pseudo_gradient_C_zero (x g : List ℚ) (h : g.length = x.length) :
    PseudoGradient x g 0 = g := by
  induction x generalizing g with
  | nil =>
    cases g with
    | nil => rfl
    | cons gh gt => simp at h
  | cons xh xt ih =>
    cases g with
    | nil => simp at h
    | cons gh gt =>
      simp only [PseudoGradient, List.zipWith_cons_cons] at *
      have hhead : pgCoord 0 xh gh = gh := by
        unfold pgCoord
        split_ifs with h1 h2 h3
        · ring
        · ring
        · ring
        · push_neg at h2 h3
          linarith [h2, h3]
      rw [hhead]
      have htail : PseudoGradient xt gt 0 = gt := ih gt (by simpa using h)
      simp only [PseudoGradient] at htail
      rw [htail]

/-- Witness for C10 at a concrete input. -/
theorem pseudo_gradient_C_zero_witness :
    PseudoGradient [1, 0, -2] [5, -7, 3] 0 = [5, -7, 3] :=
  pseudo_gradient_C_zero [1, 0, -2] [5, -7, 3] (by decide)

/-- Claim C1: the pseudo-gradient, coordinate-wise.  For a nonzero coordinate
`pgᵢ = gradᵢ + C·sign(xᵢ)`; for a zero coordinate, `gradᵢ - C` when positive,
`gradᵢ + C` when negative, otherwise 0; in particular a zero coordinate with
`gradᵢ = 0` and `C > 0` yields 0.  `C ≥ 0` as in the contract of the
regularized objective (spec §4.1). -/
theorem pseudo_gradient_coordinatewise (x g : List ℚ) (C : ℚ) (i : ℕ)
    (hC : 0 ≤ C) (hx : i < x.length) (hgl : i < g.length)
    (hp : i < (PseudoGradient x g C).length) :
    (x.get ⟨i, hx⟩ ≠ 0 →
      (PseudoGradient x g C).get ⟨i, hp⟩ =
        g.get ⟨i, hgl⟩ + C * Sign (x.get ⟨i, hx⟩)) ∧
    (x.get ⟨i, hx⟩ = 0 → g.get ⟨i, hgl⟩ - C > 0 →
      (PseudoGradient x g C).get ⟨i, hp⟩ = g.get ⟨i, hgl⟩ - C) ∧
    (x.get ⟨i, hx⟩ = 0 → g.get ⟨i, hgl⟩ + C < 0 →
      (PseudoGradient x g C).get ⟨i, hp⟩ = g.get ⟨i, hgl⟩ + C) ∧
    (x.get ⟨i, hx⟩ = 0 → g.get ⟨i, hgl⟩ - C ≤ 0 → 0 ≤ g.get ⟨i, hgl⟩ + C →
      (PseudoGradient x g C).get ⟨i, hp⟩ = 0) ∧
    (x.get ⟨i, hx⟩ = 0 → g.get ⟨i, hgl⟩ = 0 → 0 < C →
      (PseudoGradient x g C).get ⟨i, hp⟩ = 0) := by
  have key : (PseudoGradient x g C).get ⟨i, hp⟩ =
      pgCoord C (x.get ⟨i, hx⟩) (g.get ⟨i, hgl⟩) := by
    simp [PseudoGradient, List.get_eq_getElem, List.getElem_zipWith]
  rw [key]
  set xi := x.get ⟨i, hx⟩
  set gi := g.get ⟨i, hgl⟩
  unfold pgCoord
  refine ⟨fun h1 => by rw [if_pos h1], ?_, ?_, ?_, ?_⟩
  · intro h1 h2
    rw [if_neg (not_not_intro h1), if_pos h2]
  · intro h1 h2
    rw [if_neg (not_not_intro h1), if_neg (by linarith), if_pos h2]
  · intro h1 h2 h3
    rw [if_neg (not_not_intro h1), if_neg (by linarith), if_neg (by linarith)]
  · intro h1 h2 h3
    rw [if_neg (not_not_intro h1), if_neg (by linarith), if_neg (by linarith)]

/-- Witness for C1 at a concrete input. -/
theorem pseudo_gradient_coordinatewise_witness :
    (([(1:ℚ), 0].get ⟨0, by decide⟩ ≠ 0 →
      (PseudoGradient [1, 0] [2, 3] 5).get ⟨0, by decide⟩ =
        [(2:ℚ), 3].get ⟨0, by decide⟩ + 5 * Sign ([(1:ℚ), 0].get ⟨0, by decide⟩)) ∧
    ([(1:ℚ), 0].get ⟨0, by decide⟩ = 0 → [(2:ℚ), 3].get ⟨0, by decide⟩ - 5 > 0 →
      (PseudoGradient [1, 0] [2, 3] 5).get ⟨0, by decide⟩ =
        [(2:ℚ), 3].get ⟨0, by decide⟩ - 5) ∧
    ([(1:ℚ), 0].get ⟨0, by decide⟩ = 0 → [(2:ℚ), 3].get ⟨0, by decide⟩ + 5 < 0 →
      (PseudoGradient [1, 0] [2, 3] 5).get ⟨0, by decide⟩ =
        [(2:ℚ), 3].get ⟨0, by decide⟩ + 5) ∧
    ([(1:ℚ), 0].get ⟨0, by decide⟩ = 0 → [(2:ℚ), 3].get ⟨0, by decide⟩ - 5 ≤ 0 →
      0 ≤ [(2:ℚ), 3].get ⟨0, by decide⟩ + 5 →
      (PseudoGradient [1, 0] [2, 3] 5).get ⟨0, by decide⟩ = 0) ∧
    ([(1:ℚ), 0].get ⟨0, by decide⟩ = 0 → [(2:ℚ), 3].get ⟨0, by decide⟩ = 0 →
      (0:ℚ) < 5 → (PseudoGradient [1, 0] [2, 3] 5).get ⟨0, by decide⟩ = 0)) :=
  pseudo_gradient_coordinatewise [1, 0] [2, 3] 5 0 (by norm_num)
    (by decide) (by decide) (by decide)

/-- One coordinate of `Project v (-pg)` times the matching coordinate of `pg`
is never positive: a kept coordinate has the sign of `-pgᵢ`. -/
theorem projCoord_mul_nonpos (a b : ℚ) :
    (if Sign a = Sign (-b) then a else 0) * b ≤ 0 := by
  unfold Sign
  split_ifs <;> nlinarith

/-- Projecting any vector onto the orthant of `-pg` yields a vector whose dot
product with `pg` is nonpositive. -/
theorem dotProduct_project_nonpos (v pg : List ℚ) :
    DotProduct (Project v (scale (-1) pg)) pg ≤ 0 := by
  induction v generalizing pg with
  | nil => simp [DotProduct, Project]
  | cons a t ih =>
    cases pg with
    | nil => simp [DotProduct, Project, scale]
    | cons b bt =>
      have h2 := ih bt
      simp only [DotProduct, Project, scale, List.map_cons,
        List.zipWith_cons_cons, List.sum_cons] at h2 ⊢
      have h1 : (if Sign a = Sign (-1 * b) then a else 0) * b ≤ 0 := by
        have := projCoord_mul_nonpos a b
        rwa [show (-1 : ℚ) * b = -b by ring]
      linarith

/-- Claim C3 (amended): in the driver, when the raw direction
`dx = -ApproximateHg(pg)` fails the descent test (`dx·pg ≥ 0`), the corrected
direction obtained by projecting onto the orthant of `-pg` satisfies
`dx·pg ≤ 0` — nonpositive, but not necessarily strictly negative, since the
projection may zero every coordinate. -/
theorem direction_correction_nonpos (C : ℚ) (st : OwlqnState)
    (h : 0 ≤ DotProduct
        (scale (-1) (ApproximateHg st.hist (PseudoGradient st.x st.grad C)))
        (PseudoGradient st.x st.grad C)) :
    DotProduct (owlqnDir C st) (PseudoGradient st.x st.grad C) ≤ 0 := by
  unfold owlqnDir
  rw [if_pos h]
  exact dotProduct_project_nonpos _ _

/-- Witness for the amended C3 at a concrete driver state. -/
theorem direction_correction_nonpos_witness :
    DotProduct (owlqnDir 0 st3one) (PseudoGradient st3one.x st3one.grad 0) ≤ 0 :=
  direction_correction_nonpos 0 st3one (by
    norm_num [st3one, ApproximateHg, twoLoopBackward, twoLoopForward,
      DotProduct, scale, vecAdd, vecSub, PseudoGradient, pgCoord, Sign])

/-- Counterexample to C3 as stated: a reachable driver iteration (iteration 1
of `PerformOWLQN O3 [1] 0`; the first conjunct certifies the seeded state and
the second conjunct the step reaching it) where the raw direction satisfies
`dx·pg ≥ 0` but the orthant-corrected direction has `dx·pg = 0`, not `< 0`. -/
theorem direction_correction_not_strict :
    RegularizedFuncGrad O3 0 [1] = (1, [1]) ∧
    owlqnStep O3 0 5 st3zero = some st3one ∧
    0 ≤ DotProduct
        (scale (-1) (ApproximateHg st3one.hist (PseudoGradient st3one.x st3one.grad 0)))
        (PseudoGradient st3one.x st3one.grad 0) ∧
    ¬ DotProduct (owlqnDir 0 st3one) (PseudoGradient st3one.x st3one.grad 0) < 0 := by
  refine ⟨?_, ?_, ?_, ?_⟩
  · norm_num [RegularizedFuncGrad, O3, fabs]
  · norm_num [owlqnStep, owlqnDir, ConstrainedLineSearch, lsLoop, lsTrialPoint,
      lsOrthant, Project, pushHist, RegularizedFuncGrad, O3, st3zero, st3one,
      fabs, ApproximateHg, twoLoopBackward, twoLoopForward, DotProduct, scale,
      vecAdd, vecSub, PseudoGradient, pgCoord, Sign, LINE_SEARCH_ALPHA,
      LINE_SEARCH_BETA, OWLQN_M]
  · norm_num [st3one, ApproximateHg, twoLoopBackward, twoLoopForward,
      DotProduct, scale, vecAdd, vecSub, PseudoGradient, pgCoord, Sign]
  · norm_num [st3one, owlqnDir, ApproximateHg, twoLoopBackward, twoLoopForward,
      DotProduct, scale, vecAdd, vecSub, PseudoGradient, pgCoord, Sign, Project]

/-- Auxiliary step-size identities for the backtracking loop. -/
theorem lsStepSize_shift (m : ℕ) :
    2 * lsStepSize m * LINE_SEARCH_BETA = lsStepSize m ∧
    lsStepSize m = 2 * lsStepSize (m + 1) := by
  constructor
  · unfold lsStepSize LINE_SEARCH_BETA
    ring
  · unfold lsStepSize
    rw [pow_succ]
    ring

/-- The backtracking loop, entered with `t = 2·(1/2)^m` (so that its next
trial is trial `m`), returns the data of the first accepted trial `n ≥ m`
provided the remaining fuel covers it. -/
theorem lsLoop_finds (O : Oracle) (C : ℚ) (x0 grad0 : List ℚ) (f0 : ℚ)
    (dx : List ℚ) :
    ∀ (fuel m n : ℕ), m ≤ n → n - m < fuel →
    (∀ k, m ≤ k → k < n → ¬ lsAccepts O C x0 grad0 f0 dx k) →
    lsAccepts O C x0 grad0 f0 dx n →
    lsLoop O C x0 grad0 f0 dx (lsOrthant x0 grad0) fuel (2 * lsStepSize m) =
      some ((RegularizedFuncGrad O C (lsCandidate x0 grad0 dx n)).1,
            lsCandidate x0 grad0 dx n,
            (RegularizedFuncGrad O C (lsCandidate x0 grad0 dx n)).2) := by
  intro fuel
  induction fuel with
  | zero =>
    intro m n hmn hlt
    omega
  | succ fuel ih =>
    intro m n hmn hlt hmin hacc
    rw [lsLoop, (lsStepSize_shift m).1]
    show (if (RegularizedFuncGrad O C (lsCandidate x0 grad0 dx m)).1 ≤
        f0 + LINE_SEARCH_ALPHA *
          DotProduct (vecSub (lsCandidate x0 grad0 dx m) x0) grad0 then _ else _) = _
    by_cases hm : m = n
    · subst hm
      simp only [lsAccepts] at hacc
      rw [if_pos hacc]
      rfl
    · have hmn' : m < n := lt_of_le_of_ne hmn hm
      have hrej := hmin m le_rfl hmn'
      simp only [lsAccepts] at hrej
      rw [if_neg hrej, (lsStepSize_shift m).2]
      exact ih (m + 1) n (by omega) (by omega)
        (fun k hk1 hk2 => hmin k (by omega) hk2) hacc

/-- Claim C2: `ConstrainedLineSearch` returns the regularized objective of the
first trial point in the sequence `t = 1, 1/2, 1/4, ...` satisfying
`f ≤ f0 + 0.1·(x - x0)·pg0`, together with that point and the smooth gradient
at it; each trial point is `x0 + t·dx` projected onto the orthant reference
vector (`x0`, with `-pg0ᵢ` at the zero coordinates of `x0`), and trial 0 uses
step size exactly 1 (`lsStepSize 0 = 1`). -/
theorem constrained_line_search_first_accept (O : Oracle) (C : ℚ)
    (x0 grad0 : List ℚ) (f0 : ℚ) (dx : List ℚ) (fuel n : ℕ)
    (hn : n < fuel)
    (hmin : ∀ k, k < n → ¬ lsAccepts O C x0 grad0 f0 dx k)
    (hacc : lsAccepts O C x0 grad0 f0 dx n) :
    lsStepSize 0 = 1 ∧
    ConstrainedLineSearch O C x0 grad0 f0 dx fuel =
      some ((RegularizedFuncGrad O C (lsCandidate x0 grad0 dx n)).1,
            lsCandidate x0 grad0 dx n,
            O.grad (lsCandidate x0 grad0 dx n)) := by
  refine ⟨by norm_num [lsStepSize], ?_⟩
  unfold ConstrainedLineSearch
  rw [show (1 : ℚ) / LINE_SEARCH_BETA = 2 * lsStepSize 0 by
    norm_num [LINE_SEARCH_BETA, lsStepSize]]
  exact lsLoop_finds O C x0 grad0 f0 dx fuel 0 n (Nat.zero_le n) (by omega)
    (fun k _ hk => hmin k hk) hacc

/-- Witness for C2 at a concrete input whose first trial is accepted. -/
theorem constrained_line_search_first_accept_witness :
    lsStepSize 0 = 1 ∧
    ConstrainedLineSearch O2w 0 [1] [-1] 0 [-1/2] 1 =
      some ((RegularizedFuncGrad O2w 0 (lsCandidate [1] [-1] [-1/2] 0)).1,
            lsCandidate [1] [-1] [-1/2] 0,
            O2w.grad (lsCandidate [1] [-1] [-1/2] 0)) :=
  constrained_line_search_first_accept O2w 0 [1] [-1] 0 [-1/2] 1 0 (by norm_num)
    (fun k hk => absurd hk (Nat.not_lt_zero k))
    (by norm_num [lsAccepts, lsCandidate, lsTrialPoint, lsOrthant, lsStepSize,
      Project, vecAdd, vecSub, scale, DotProduct, RegularizedFuncGrad, O2w,
      fabs, Sign, LINE_SEARCH_ALPHA])

/-- The outer loop never runs more iterations than its fuel allows. -/
theorem owlqnLoop_count_le (O : Oracle) (C : ℚ) (lsFuel : ℕ) :
    ∀ (fuel : ℕ) (st : OwlqnState) (r : OwlqnState × ℕ × List ℚ),
      owlqnLoop O C lsFuel fuel st = some r → r.2.1 ≤ fuel := by
  intro fuel
  induction fuel with
  | zero =>
    intro st r h
    rw [owlqnLoop] at h
    cases h
    exact le_refl 0
  | succ fuel ih =>
    intro st r h
    rw [owlqnLoop] at h
    split_ifs at h with hstop
    · cases h
      exact Nat.zero_le _
    · split at h
      · cases h
      · rename_i st1 hstep
        split at h
        · cases h
        · rename_i r2 hloop
          cases h
          simpa using Nat.succ_le_succ (ih st1 r2 hloop)

/-- Claim C4: the outer loop of `PerformOWLQN` executes at most
`OWLQN_MAX_ITER = 300` iterations, and whenever the pseudo-gradient at the
head of an iteration satisfies `pg·pg < MIN_GRAD_NORM²` (the squared form of
`‖pg‖ < 1e-4`), the loop terminates at once, returning the current state
untouched with no further iteration. -/
theorem owlqn_iteration_bound_and_stop :
    (∀ (O : Oracle) (C : ℚ) (lsFuel : ℕ) (st : OwlqnState)
        (r : OwlqnState × ℕ × List ℚ),
        owlqnLoop O C lsFuel OWLQN_MAX_ITER st = some r → r.2.1 ≤ 300) ∧
    (∀ (O : Oracle) (C : ℚ) (lsFuel fuel : ℕ) (st : OwlqnState),
        DotProduct (PseudoGradient st.x st.grad C)
            (PseudoGradient st.x st.grad C) <
          MIN_GRAD_NORM * MIN_GRAD_NORM →
        owlqnLoop O C lsFuel (fuel + 1) st = some (st, 0, [])) := by
  constructor
  · intro O C lsFuel st r h
    exact owlqnLoop_count_le O C lsFuel OWLQN_MAX_ITER st r h
  · intro O C lsFuel fuel st h
    rw [owlqnLoop, if_pos h]

/-- Witness for C4: the bound and the immediate stop, at a concrete state
whose pseudo-gradient is identically zero. -/
theorem owlqn_iteration_bound_and_stop_witness :
    ((stZ, 0, ([] : List ℚ)) : OwlqnState × ℕ × List ℚ).2.1 ≤ 300 ∧
    owlqnLoop Oz 0 1 1 stZ = some (stZ, 0, []) :=
  ⟨owlqn_iteration_bound_and_stop.1 Oz 0 1 stZ (stZ, 0, [])
      (by
        rw [show OWLQN_MAX_ITER = 299 + 1 from rfl]
        exact owlqn_iteration_bound_and_stop.2 Oz 0 1 299 stZ (by
          norm_num [stZ, PseudoGradient, pgCoord, DotProduct, MIN_GRAD_NORM])),
   owlqn_iteration_bound_and_stop.2 Oz 0 1 0 stZ (by
      norm_num [stZ, PseudoGradient, pgCoord, DotProduct, MIN_GRAD_NORM])⟩

/-- Claim C9: if the pseudo-gradient at the initial point already has
`pg·pg < MIN_GRAD_NORM²`, then the driver loop returns its seeded state with
zero iterations executed (no line search runs, no history entry is written)
and `PerformOWLQN` returns `x0` itself. -/
theorem owlqn_initial_small_gradient (O : Oracle) (C : ℚ) (x0 : List ℚ)
    (lsFuel : ℕ)
    (h : DotProduct (PseudoGradient x0 (O.grad x0) C)
        (PseudoGradient x0 (O.grad x0) C) < MIN_GRAD_NORM * MIN_GRAD_NORM) :
    owlqnLoop O C lsFuel OWLQN_MAX_ITER
        ⟨x0, (RegularizedFuncGrad O C x0).2, (RegularizedFuncGrad O C x0).1, []⟩ =
      some (⟨x0, (RegularizedFuncGrad O C x0).2, (RegularizedFuncGrad O C x0).1, []⟩,
            0, []) ∧
    PerformOWLQN O x0 C lsFuel = some x0 := by
  have hloop : owlqnLoop O C lsFuel OWLQN_MAX_ITER
      ⟨x0, (RegularizedFuncGrad O C x0).2, (RegularizedFuncGrad O C x0).1, []⟩ =
      some (⟨x0, (RegularizedFuncGrad O C x0).2, (RegularizedFuncGrad O C x0).1, []⟩,
            0, []) := by
    rw [show OWLQN_MAX_ITER = 299 + 1 from rfl, owlqnLoop, if_pos]
    exact h
  refine ⟨hloop, ?_⟩
  simp only [PerformOWLQN]
  rw [hloop]

/-- Every value returned by the backtracking loop satisfies the
sufficient-decrease bound it was accepted under. -/
theorem lsLoop_return_armijo (O : Oracle) (C : ℚ) (x0 grad0 : List ℚ) (f0 : ℚ)
    (dx orthant : List ℚ) :
    ∀ (fuel : ℕ) (t : ℚ) (r : ℚ × List ℚ × List ℚ),
      lsLoop O C x0 grad0 f0 dx orthant fuel t = some r →
      r.1 ≤ f0 + LINE_SEARCH_ALPHA * DotProduct (vecSub r.2.1 x0) grad0 := by
  intro fuel
  induction fuel with
  | zero =>
    intro t r h
    rw [lsLoop] at h
    cases h
  | succ fuel ih =>
    intro t r h
    rw [lsLoop] at h
    split_ifs at h with hcond
    · cases h
      exact hcond
    · exact ih _ r h

/-- Claim C5 (amended): one accepted driver iteration satisfies the Armijo
bound `f₁ ≤ f₀ + 0.1·(x₁ - x₀)·pg₀`; the objective is non-increasing
(`f₁ ≤ f₀`) whenever the accepted point additionally satisfies
`(x₁ - x₀)·pg₀ ≤ 0`, which the projected step does not guarantee. -/
theorem owlqn_step_descent (O : Oracle) (C : ℚ) (lsFuel : ℕ)
    (st st1 : OwlqnState) (h : owlqnStep O C lsFuel st = some st1) :
    st1.f ≤ st.f + LINE_SEARCH_ALPHA *
        DotProduct (vecSub st1.x st.x) (PseudoGradient st.x st.grad C) ∧
    (DotProduct (vecSub st1.x st.x) (PseudoGradient st.x st.grad C) ≤ 0 →
      st1.f ≤ st.f) := by
  have harm : st1.f ≤ st.f + LINE_SEARCH_ALPHA *
      DotProduct (vecSub st1.x st.x) (PseudoGradient st.x st.grad C) := by
    simp only [owlqnStep] at h
    split at h
    · cases h
    · rename_i r hls
      cases h
      have := lsLoop_return_armijo O C st.x (PseudoGradient st.x st.grad C)
        st.f (owlqnDir C st)
        (lsOrthant st.x (PseudoGradient st.x st.grad C)) lsFuel
        (1 / LINE_SEARCH_BETA) r hls
      simpa using this
  refine ⟨harm, fun hd => ?_⟩
  have hmul : LINE_SEARCH_ALPHA *
      DotProduct (vecSub st1.x st.x) (PseudoGradient st.x st.grad C) ≤ 0 :=
    mul_nonpos_of_nonneg_of_nonpos (by norm_num [LINE_SEARCH_ALPHA]) hd
  linarith

/-- Witness for the amended C5 at a concrete accepted step (the `O6` run),
whose accepted point has `(x₁ - x₀)·pg₀ = -1 ≤ 0`. -/
theorem owlqn_step_descent_witness :
    (st6one.f ≤ st6zero.f + LINE_SEARCH_ALPHA *
        DotProduct (vecSub st6one.x st6zero.x)
          (PseudoGradient st6zero.x st6zero.grad 0) ∧
      (DotProduct (vecSub st6one.x st6zero.x)
          (PseudoGradient st6zero.x st6zero.grad 0) ≤ 0 →
        st6one.f ≤ st6zero.f)) :=
  owlqn_step_descent O6 0 5 st6zero st6one (by
    norm_num [owlqnStep, owlqnDir, ConstrainedLineSearch, lsLoop, lsTrialPoint,
      lsOrthant, Project, pushHist, RegularizedFuncGrad, O6, st6zero, st6one,
      fabs, ApproximateHg, twoLoopBackward, twoLoopForward, DotProduct, scale,
      vecAdd, vecSub, PseudoGradient, pgCoord, Sign, LINE_SEARCH_ALPHA,
      LINE_SEARCH_BETA, OWLQN_M])

/-- Unfolding helper: one non-stopping iteration of the outer loop followed by
the rest of the run. -/
theorem owlqnLoop_go (O : Oracle) (C : ℚ) (lsFuel fuel : ℕ)
    (st st1 : OwlqnState) (r : OwlqnState × ℕ × List ℚ)
    (hpg : ¬ DotProduct (PseudoGradient st.x st.grad C)
        (PseudoGradient st.x st.grad C) < MIN_GRAD_NORM * MIN_GRAD_NORM)
    (hstep : owlqnStep O C lsFuel st = some st1)
    (hrec : owlqnLoop O C lsFuel fuel st1 = some r) :
    owlqnLoop O C lsFuel (fuel + 1) st = some (r.1, r.2.1 + 1, st1.f :: r.2.2) := by
  rw [owlqnLoop, if_neg hpg, hstep]
  simp only [hrec]

/-- Counterexample to C5 as stated: the full driver run
`PerformOWLQN O5 x5init 0` (first conjunct certifies the seeded state)
executes exactly two accepted line searches whose accepted objective values
are `0` and then `1/60`: the regularized objective strictly increases across
two consecutive accepted iterations, because the second accepted point has
`(x - x0)·pg0 = 2/3 > 0` and the Armijo condition only bounds `f` by
`f0 + 0.1·(x - x0)·pg0`. -/
theorem owlqn_monotone_descent_counterexample :
    RegularizedFuncGrad O5 0 x5init = (32, [4, 4]) ∧
    owlqnLoop O5 0 9 OWLQN_MAX_ITER st5init = some (st5final, 2, [0, 1/60]) ∧
    ¬ ((1:ℚ)/60 ≤ 0) := by
  have h1 : owlqnStep O5 0 9 st5init = some st5mid := by
    norm_num [owlqnStep, owlqnDir, ConstrainedLineSearch, lsLoop, lsTrialPoint,
      lsOrthant, Project, pushHist, RegularizedFuncGrad, O5, st5init, st5mid,
      x5init, x5one, fabs, ApproximateHg, twoLoopBackward, twoLoopForward,
      DotProduct, scale, vecAdd, vecSub, PseudoGradient, pgCoord, Sign,
      LINE_SEARCH_ALPHA, LINE_SEARCH_BETA, OWLQN_M]
  have h2 : owlqnStep O5 0 9 st5mid = some st5final := by
    norm_num [owlqnStep, owlqnDir, ConstrainedLineSearch, lsLoop, lsTrialPoint,
      lsOrthant, Project, pushHist, RegularizedFuncGrad, O5, st5mid, st5final,
      x5init, x5one, fabs, ApproximateHg, twoLoopBackward, twoLoopForward,
      DotProduct, scale, vecAdd, vecSub, PseudoGradient, pgCoord, Sign,
      LINE_SEARCH_ALPHA, LINE_SEARCH_BETA, OWLQN_M]
  have hstop : DotProduct (PseudoGradient st5final.x st5final.grad 0)
      (PseudoGradient st5final.x st5final.grad 0) <
      MIN_GRAD_NORM * MIN_GRAD_NORM := by
    norm_num [st5final, PseudoGradient, pgCoord, DotProduct, MIN_GRAD_NORM]
  have hL2 : owlqnLoop O5 0 9 298 st5final = some (st5final, 0, []) := by
    rw [show (298:ℕ) = 297 + 1 from rfl, owlqnLoop, if_pos hstop]
  have hgo1 : ¬ DotProduct (PseudoGradient st5mid.x st5mid.grad 0)
      (PseudoGradient st5mid.x st5mid.grad 0) <
      MIN_GRAD_NORM * MIN_GRAD_NORM := by
    norm_num [st5mid, x5one, PseudoGradient, pgCoord, DotProduct, MIN_GRAD_NORM]
  have hgo0 : ¬ DotProduct (PseudoGradient st5init.x st5init.grad 0)
      (PseudoGradient st5init.x st5init.grad 0) <
      MIN_GRAD_NORM * MIN_GRAD_NORM := by
    norm_num [st5init, x5init, PseudoGradient, pgCoord, DotProduct, MIN_GRAD_NORM]
  have hL1 : owlqnLoop O5 0 9 299 st5mid = some (st5final, 1, [1/60]) := by
    have := owlqnLoop_go O5 0 9 298 st5mid st5final (st5final, 0, []) hgo1 h2 hL2
    simpa [st5final] using this
  have hL0 : owlqnLoop O5 0 9 300 st5init = some (st5final, 2, [0, 1/60]) := by
    have := owlqnLoop_go O5 0 9 299 st5init st5mid (st5final, 1, [1/60]) hgo0 h1 hL1
    simpa [st5mid] using this
  refine ⟨?_, ?_, by norm_num⟩
  · norm_num [RegularizedFuncGrad, O5, x5init, fabs]
  · rw [show OWLQN_MAX_ITER = 300 from rfl]
    exact hL0

/-- Claim C6 at its failing input: one driver step of `PerformOWLQN O6 [1] 0`
(constant smooth gradient) writes a history pair whose `y·s` is exactly 0
while storing rho `= 1/(y·s)` computed by the unguarded division — `1/0`,
which is `+inf` in the C++ double arithmetic (and `0` in ℚ).  Nothing guards
the division and `ApproximateHg` does not skip the pair. -/
theorem rho_division_unguarded :
    owlqnStep O6 0 5 st6zero = some st6one ∧
    st6one.hist.map (fun e => DotProduct e.y e.s) = [0] ∧
    st6one.hist.map (fun e => e.z) = [1 / (0:ℚ)] := by
  refine ⟨?_, ?_, ?_⟩
  · norm_num [owlqnStep, owlqnDir, ConstrainedLineSearch, lsLoop, lsTrialPoint,
      lsOrthant, Project, pushHist, RegularizedFuncGrad, O6, st6zero, st6one,
      fabs, ApproximateHg, twoLoopBackward, twoLoopForward, DotProduct, scale,
      vecAdd, vecSub, PseudoGradient, pgCoord, Sign, LINE_SEARCH_ALPHA,
      LINE_SEARCH_BETA, OWLQN_M]
  · norm_num [st6one, DotProduct]
  · norm_num [st6one]

/-- Along `dx = [-1]` from `x0 = [1]` with `grad0 = [1]` under the constant
objective `O7`, every shrink of the step size is rejected, for any positive
entry step size. -/
theorem lsLoop_O7_never (fuel : ℕ) : ∀ (t : ℚ), 0 < t →
    lsLoop O7 0 [1] [1] 1 [-1] (lsOrthant [1] [1]) fuel t = none := by
  induction fuel with
  | zero =>
    intro t ht
    rw [lsLoop]
  | succ fuel ih =>
    intro t ht
    have hβ : (0:ℚ) < LINE_SEARCH_BETA := by norm_num [LINE_SEARCH_BETA]
    have hng : ¬ ((RegularizedFuncGrad O7 0
        (lsTrialPoint [1] [-1] (lsOrthant [1] [1]) (t * LINE_SEARCH_BETA))).1 ≤
        1 + LINE_SEARCH_ALPHA * DotProduct
          (vecSub (lsTrialPoint [1] [-1] (lsOrthant [1] [1])
            (t * LINE_SEARCH_BETA)) [1]) [1]) := by
      have ht1 : 0 < t * LINE_SEARCH_BETA := mul_pos ht hβ
      simp only [lsTrialPoint, lsOrthant, Project, vecAdd, scale, vecSub,
        DotProduct, RegularizedFuncGrad, O7, fabs, Sign, LINE_SEARCH_ALPHA,
        List.zipWith_cons_cons, List.zipWith_nil_left, List.map_cons,
        List.map_nil, List.foldl_cons, List.foldl_nil, List.sum_cons,
        List.sum_nil, not_le, zero_mul, add_zero, mul_one, mul_zero]
      split_ifs <;> linarith
    rw [lsLoop]
    simp only [hng, if_false]
    exact ih (t * LINE_SEARCH_BETA) (mul_pos ht hβ)

/-- Claim C7: the backtracking loop has no termination bound.  At the
concrete inputs `C = 0`, `x0 = [1]`, `pg0 = [1]`, `f0 = 1` (consistent with
the oracle: first conjunct), `dx = [-1]` under the constant-loss oracle `O7`,
no shrink count suffices: for every fuel the loop fails to return. -/
theorem line_search_unbounded_shrink :
    (RegularizedFuncGrad O7 0 [1]).1 = 1 ∧
    ∀ fuel : ℕ, ConstrainedLineSearch O7 0 [1] [1] 1 [-1] fuel = none := by
  constructor
  · norm_num [RegularizedFuncGrad, O7, fabs]
  · intro fuel
    unfold ConstrainedLineSearch
    exact lsLoop_O7_never fuel (1 / LINE_SEARCH_BETA)
      (by norm_num [LINE_SEARCH_BETA])

/-- Witness for C9 at a concrete oracle with vanishing gradient. -/
theorem owlqn_initial_small_gradient_witness :
    owlqnLoop Oz 0 1 OWLQN_MAX_ITER
        ⟨[0], (RegularizedFuncGrad Oz 0 [0]).2, (RegularizedFuncGrad Oz 0 [0]).1, []⟩ =
      some (⟨[0], (RegularizedFuncGrad Oz 0 [0]).2, (RegularizedFuncGrad Oz 0 [0]).1, []⟩,
            0, []) ∧
    PerformOWLQN Oz [0] 0 1 = some [0] :=
  owlqn_initial_small_gradient Oz 0 [0] 1 (by
    norm_num [Oz, PseudoGradient, pgCoord, DotProduct, MIN_GRAD_NORM])

end Mltk
